import Mathlib

/-! Verification development for the `ksni` tray-service library.

The definitions below are a shallow embedding, into Lean, of the Rust code in
`src/menu.rs` and `src/service.rs`: the menu flattener, the identity scheme
(`id2index` / `index2id`), the menu diff engine (`update_menu`) and the
D-Bus-facing menu methods (`get_property`, `get_group_properties`, `event`,
`event_group`).

Modelling conventions:
- Rust `i32` identities and the identity offset are modelled as mathematical
  `Int` (overflow of the identity arithmetic panics in the source via
  `checked_add(..).expect(..)`, so the non-overflowing range is the one of
  interest); `u32`/`usize` become `Nat`.
- Rust panics (`Option::unwrap` on `None`, out-of-range indexing, failed
  `assert_ne!`) are modelled explicitly by the `DbusResult.panic` outcome,
  kept distinct from a returned D-Bus method error (`DbusResult.methodErr`).
- Function-valued fields (`on_clicked` click handlers) and opaque
  vendor-specific D-Bus variants (`vendor_properties`) cannot be compared or
  stored in a first-order embedding; the handler behaviour is supplied as an
  explicit parameter (`TrayImpl.onClicked`) and vendor properties are omitted.
- `RawMenuItem::diff`, used by `InnerState::update_menu`, belongs to a part of
  the crate that is not present in this source snapshot (only its caller is);
  following the specification it is an arbitrary per-row property diff
  `diff : item -> item -> Option (updated-props, removed-prop-names)` and is
  taken as a parameter, so every theorem below holds for all such diffs.
-/

namespace Ksni

/-- Rust `menu::ItemType` (src/menu.rs). Vendor-specific types are omitted
(they carry opaque data and never arise from `menu_flatten`). -/
inductive ItemType where
  | standard
  | sepatator
  deriving DecidableEq, Repr

/-- Rust `menu::ToggleType` (src/menu.rs). -/
inductive ToggleType where
  | checkmark
  | radio
  | null
  deriving DecidableEq, Repr

/-- Rust `menu::ToggleState` (src/menu.rs): `Off = 0`, `On = 1`,
`Indeterminate = -1`. -/
inductive ToggleState where
  | off
  | on
  | indeterminate
  deriving DecidableEq, Repr

/-- Rust `menu::ItemDisposition` (src/menu.rs). -/
inductive ItemDisposition where
  | normal
  | informative
  | warning
  | alert
  deriving DecidableEq, Repr

/-- Rust `menu::RawMenuItem` (src/menu.rs): one flattened menu row's observable
properties.  The `on_clicked` closure and the opaque `vendor_properties`
map are omitted (see the module conventions). -/
structure RawMenuItem where
  itype : ItemType
  label : String
  enabled : Bool
  visible : Bool
  icon_name : String
  icon_data : List Nat
  shortcut : List (List String)
  toggle_type : ToggleType
  toggle_state : ToggleState
  disposition : ItemDisposition
  deriving DecidableEq, Repr

/-- Rust `impl Default for RawMenuItem` (src/menu.rs). -/
def RawMenuItem.default : RawMenuItem :=
  { itype := .standard
    label := ""
    enabled := true
    visible := true
    icon_name := ""
    icon_data := []
    shortcut := []
    toggle_type := .null
    toggle_state := .indeterminate
    disposition := .normal }

/-- Rust `menu::StandardItem` (src/menu.rs); the `activate` closure is omitted. -/
structure StandardItem where
  label : String
  enabled : Bool
  visible : Bool
  icon_name : String
  icon_data : List Nat
  shortcut : List (List String)
  disposition : ItemDisposition
  deriving DecidableEq, Repr

/-- Rust `impl Default for StandardItem` (src/menu.rs). -/
def StandardItem.default : StandardItem :=
  { label := ""
    enabled := true
    visible := true
    icon_name := ""
    icon_data := []
    shortcut := []
    disposition := .normal }

/-- Rust `menu::CheckmarkItem` (src/menu.rs); the `activate` closure is omitted. -/
structure CheckmarkItem where
  label : String
  enabled : Bool
  visible : Bool
  checked : Bool
  icon_name : String
  icon_data : List Nat
  shortcut : List (List String)
  disposition : ItemDisposition
  deriving DecidableEq, Repr

/-- Rust `impl Default for CheckmarkItem` (src/menu.rs). -/
def CheckmarkItem.default : CheckmarkItem :=
  { label := ""
    enabled := true
    visible := true
    checked := false
    icon_name := ""
    icon_data := []
    shortcut := []
    disposition := .normal }

/-- Rust `menu::MenuItem` (src/menu.rs): the application-facing nested menu tree.
The fields of the Rust `SubMenu` struct are inlined into the `subMenu`
constructor (Lean mutual blocks do not mix structures and inductives).
`RadioGroup` is, in this source snapshot, an empty placeholder struct. -/
inductive MenuItem where
  | standard (item : StandardItem)
  | sepatator
  | checkmark (item : CheckmarkItem)
  | subMenu (label : String) (enabled : Bool) (visible : Bool)
      (icon_name : String) (icon_data : List Nat)
      (shortcut : List (List String)) (disposition : ItemDisposition)
      (submenu : List MenuItem)
  | radioGroup
  deriving Repr

/-- Rust `impl From<StandardItem> for RawMenuItem` (src/menu.rs). -/
def StandardItem.toRaw (item : StandardItem) : RawMenuItem :=
  { itype := .standard
    label := item.label
    enabled := item.enabled
    visible := item.visible
    icon_name := item.icon_name
    icon_data := item.icon_data
    shortcut := item.shortcut
    toggle_type := .null
    toggle_state := .indeterminate
    disposition := item.disposition }

/-- Rust `impl From<CheckmarkItem> for RawMenuItem` (src/menu.rs). -/
def CheckmarkItem.toRaw (item : CheckmarkItem) : RawMenuItem :=
  { itype := .standard
    label := item.label
    enabled := item.enabled
    visible := item.visible
    icon_name := item.icon_name
    icon_data := item.icon_data
    shortcut := item.shortcut
    toggle_type := .checkmark
    toggle_state := if item.checked then .on else .off
    disposition := item.disposition }

/-- Rust `impl From<SubMenu> for RawMenuItem` (src/menu.rs): the submenu's own
child list is removed before conversion, all other fields are copied. -/
def subMenuToRaw (label : String) (enabled visible : Bool) (icon_name : String)
    (icon_data : List Nat) (shortcut : List (List String))
    (disposition : ItemDisposition) : RawMenuItem :=
  { itype := .standard
    label := label
    enabled := enabled
    visible := visible
    icon_name := icon_name
    icon_data := icon_data
    shortcut := shortcut
    toggle_type := .null
    toggle_state := .indeterminate
    disposition := disposition }

/-- The separator row built inline in `menu_flatten` (src/menu.rs):
`RawMenuItem { r#type: ItemType::Sepatator, ..Default::default() }`. -/
def sepatatorRaw : RawMenuItem :=
  { RawMenuItem.default with itype := .sepatator }

/-- One row of the flattened menu table: the item plus the list of row
indices of its direct children (`Vec<(RawMenuItem, Vec<usize>)>`). -/
abbrev MenuRow := RawMenuItem × List Nat

/-- Rust `list[n] = f(list[n])`: in-place update of one element, as done by
`list[parent_index].1.push(index)` in `menu_flatten`. -/
def modifyAt (l : List MenuRow) (n : Nat) (f : MenuRow → MenuRow) : List MenuRow :=
  match l, n with
  | [], _ => []
  | x :: xs, 0 => f x :: xs
  | x :: xs, n + 1 => x :: modifyAt xs n f

/-- Append child indices `cs` to the child list of row `p`. -/
def pushChildren (l : List MenuRow) (p : Nat) (cs : List Nat) : List MenuRow :=
  modifyAt l p (fun r => (r.1, r.2 ++ cs))

mutual

/-- Number of tree nodes of a `MenuItem` (used only for termination
measures and for node counting in the statements below). -/
def MenuItem.size : MenuItem → Nat
  | .standard _ => 1
  | .sepatator => 1
  | .checkmark _ => 1
  | .subMenu _ _ _ _ _ _ _ sub => 1 + menuSize sub
  | .radioGroup => 1

/-- Total number of tree nodes of a menu forest. -/
def menuSize : List MenuItem → Nat
  | [] => 0
  | i :: rest => MenuItem.size i + menuSize rest

end

/-- Total node weight of the pending work stack of `menu_flatten`;
used (lexicographically with the stack length) as the termination
measure of `flattenLoop`. -/
def stackWeight (stack : List (List MenuItem × Nat)) : Nat :=
  (stack.map (fun f => menuSize f.1)).sum

/-- The worklist loop of `menu_flatten` (src/menu.rs lines 515-554),
one Lean recursion step per iteration of the Rust nested `while` loops:
the head frame `(current_menu, parent_index)` is the Rust inner loop,
`break`-ing into a submenu pushes the submenu frame on top of the
remaining-items frame.  `RadioGroup` items are consumed without
producing a row. -/
def flattenLoop : List (List MenuItem × Nat) → List MenuRow → List MenuRow
  | [], list => list
  | ([], _) :: stack, list => flattenLoop stack list
  | (MenuItem.standard item :: rest, parent) :: stack, list =>
      flattenLoop ((rest, parent) :: stack)
        (pushChildren (list ++ [(item.toRaw, [])]) parent [list.length])
  | (MenuItem.sepatator :: rest, parent) :: stack, list =>
      flattenLoop ((rest, parent) :: stack)
        (pushChildren (list ++ [(sepatatorRaw, [])]) parent [list.length])
  | (MenuItem.checkmark item :: rest, parent) :: stack, list =>
      flattenLoop ((rest, parent) :: stack)
        (pushChildren (list ++ [(item.toRaw, [])]) parent [list.length])
  | (MenuItem.subMenu lb en vi ic da sc di submenu :: rest, parent) :: stack, list =>
      let index := list.length
      let list' := pushChildren (list ++ [(subMenuToRaw lb en vi ic da sc di, [])]) parent [index]
      if submenu.isEmpty then
        flattenLoop ((rest, parent) :: stack) list'
      else
        flattenLoop ((submenu, index) :: (rest, parent) :: stack) list'
  | (MenuItem.radioGroup :: rest, parent) :: stack, list =>
      flattenLoop ((rest, parent) :: stack) list
  termination_by stack _ => (stackWeight stack, stack.length)
  decreasing_by
    all_goals simp [Prod.lex_def, stackWeight, menuSize, MenuItem.size]
    all_goals omega

/-- Rust `menu::menu_flatten` (src/menu.rs): flatten the nested menu into the
row table, starting from the synthetic root row `(RawMenuItem::default(), [])`
and the single work frame `(items, 0)`. -/
def menu_flatten (items : List MenuItem) : List MenuRow :=
  flattenLoop [(items, 0)] [(RawMenuItem.default, [])]

/-- The row that a single non-`SubMenu`, non-`RadioGroup` item flattens to. -/
def MenuItem.leafRaw : MenuItem → RawMenuItem
  | .standard item => item.toRaw
  | .sepatator => sepatatorRaw
  | .checkmark item => item.toRaw
  | .subMenu lb en vi ic da sc di _ => subMenuToRaw lb en vi ic da sc di
  | .radioGroup => RawMenuItem.default

/-- Reference (spec-shaped) flattener: `buildForest start items` returns the
depth-first rows of the forest `items` — each node's row immediately followed
by the rows of its fully-expanded subtree — assuming the first of those rows
will sit at index `start` of the final table, together with the table indices
of the forest's top-level rows in their original order.  `RadioGroup` items
contribute no row.  Each row's child list is exactly the indices of its
immediate non-`RadioGroup` children in original order. -/
def buildForest (start : Nat) : List MenuItem → List MenuRow × List Nat
  | [] => ([], [])
  | MenuItem.radioGroup :: rest => buildForest start rest
  | MenuItem.subMenu lb en vi ic da sc di submenu :: rest =>
      let sub := buildForest (start + 1) submenu
      let r := buildForest (start + 1 + sub.1.length) rest
      ((subMenuToRaw lb en vi ic da sc di, sub.2) :: (sub.1 ++ r.1), start :: r.2)
  | MenuItem.standard item :: rest =>
      let r := buildForest (start + 1) rest
      ((item.toRaw, []) :: r.1, start :: r.2)
  | MenuItem.sepatator :: rest =>
      let r := buildForest (start + 1) rest
      ((sepatatorRaw, []) :: r.1, start :: r.2)
  | MenuItem.checkmark item :: rest =>
      let r := buildForest (start + 1) rest
      ((item.toRaw, []) :: r.1, start :: r.2)
  termination_by items => menuSize items
  decreasing_by
    all_goals simp [menuSize, MenuItem.size]
    all_goals omega

/-- The specification's flat table: synthetic root row 0 whose children are
the top-level items, followed by the depth-first rows of the forest. -/
def flattenSpec (items : List MenuItem) : List MenuRow :=
  (RawMenuItem.default, (buildForest 1 items).2) :: (buildForest 1 items).1

/-- Number of `MenuItem` nodes in a forest that are not `RadioGroup`
(those are the nodes that produce a row). -/
def countRows : List MenuItem → Nat
  | [] => 0
  | MenuItem.radioGroup :: rest => countRows rest
  | MenuItem.subMenu _ _ _ _ _ _ _ submenu :: rest =>
      1 + countRows submenu + countRows rest
  | MenuItem.standard _ :: rest => 1 + countRows rest
  | MenuItem.sepatator :: rest => 1 + countRows rest
  | MenuItem.checkmark _ :: rest => 1 + countRows rest
  termination_by items => menuSize items
  decreasing_by
    all_goals simp [menuSize, MenuItem.size]
    all_goals omega

/-- Number of all `MenuItem` nodes in a forest, `RadioGroup` included. -/
def countNodes : List MenuItem → Nat
  | [] => 0
  | MenuItem.subMenu _ _ _ _ _ _ _ submenu :: rest =>
      1 + countNodes submenu + countNodes rest
  | MenuItem.standard _ :: rest => 1 + countNodes rest
  | MenuItem.sepatator :: rest => 1 + countNodes rest
  | MenuItem.checkmark _ :: rest => 1 + countNodes rest
  | MenuItem.radioGroup :: rest => 1 + countNodes rest
  termination_by items => menuSize items
  decreasing_by
    all_goals simp [menuSize, MenuItem.size]
    all_goals omega

/-!  Identity scheme (src/service.rs, `InnerState::id2index` /
`InnerState::index2id`).  Identities are `i32`, modelled as `Int`. -/

/-- Rust `InnerState::id2index` (src/service.rs lines 422-434): identity 0 is
always row 0; otherwise subtract the current offset and accept any strictly
positive result.  Note: no upper bound against the table length is applied
here; callers that need one (e.g. `event_group`) check it themselves. -/
def id2index (offset : Int) (id : Int) : Option Nat :=
  if id = 0 then
    some 0
  else
    let index := id - offset
    if index > 0 then some index.toNat else none

/-- Rust `InnerState::index2id` (src/service.rs lines 436-446): row 0 is identity
0; any other row index maps to `index + offset`.  The source panics on `i32`
overflow (`checked_add(..).expect(..)`); the `Int` model is exact. -/
def index2id (offset : Int) (index : Nat) : Int :=
  if index = 0 then 0 else (index : Int) + offset

/-!  Diff engine (src/service.rs, `InnerState::update_menu`, lines 355-420).

The loop walks the old and the freshly rebuilt table in lock-step by
position over the length of the *new* table, the old table padded with
default rows (`old_menu.iter().chain(iter::repeat(&(default, vec![])))`).
Per position it first accumulates the per-row property delta produced by
`RawMenuItem::diff` (pairs are tagged with `index2id` at the *old* offset),
then compares the child lists and stops at the first divergence.

The per-row diff `RawMenuItem::diff` is not part of this source snapshot
(the `RawMenuItem<T>` generation of `menu.rs` that defines it is absent;
only this caller is), so it is a parameter `diff` throughout: it returns
`none` when the row fingerprint is unchanged and otherwise the map of
changed properties (an association list with values of an arbitrary type
`ν`) and the list of removed property names. -/

/-- One row of a diffable table: an item of type `α` plus child indices. -/
abbrev TableRow (α : Type) := α × List Nat

/-- A per-row property diff: changed properties and removed property names. -/
abbrev RowDiff (ν : Type) := List (String × ν) × List String

/-- The menu-side state owned by `InnerState` (src/service.rs):
`menu_cache`, `item_id_offset` and `revision`. -/
structure MenuState (α ν : Type) where
  table : List (TableRow α)
  offset : Int
  revision : Nat

/-- The two menu notifications `update_menu` can emit:
`DbusmenuLayoutUpdated { parent, revision }` and
`DbusmenuItemsPropertiesUpdated { updated_props, removed_props }`. -/
inductive MenuNote (ν : Type) where
  | layoutUpdated (parent : Int) (revision : Nat)
  | itemsPropertiesUpdated (updated : List (Int × List (String × ν)))
      (removed : List (Int × List String))

/-- The lock-step comparison loop of `update_menu` (src/service.rs lines
365-390): returns the accumulated `updated_props`, `removed_props` and the
`layout_updated` flag.  `idx` is the position of the head of `new` in the
table, `i2id` is `index2id` at the pre-cycle offset. -/
def diffWalk (diff : α → α → Option (RowDiff ν)) (default : α)
    (i2id : Nat → Int) (old new : List (TableRow α)) (idx : Nat) :
    List (Int × List (String × ν)) × List (Int × List String) × Bool :=
  match new with
  | [] => ([], [], false)
  | (newItem, newChilds) :: newRest =>
    let o := old.headD (default, [])
    let pu : List (Int × List (String × ν)) × List (Int × List String) :=
      match diff o.1 newItem with
      | some (u, r) =>
        ((if u.isEmpty then [] else [(i2id idx, u)]),
         (if r.isEmpty then [] else [(i2id idx, r)]))
      | none => ([], [])
    if o.2 ≠ newChilds then
      (pu.1, pu.2, true)
    else
      let rest := diffWalk diff default i2id old.tail newRest (idx + 1)
      (pu.1 ++ rest.1, pu.2 ++ rest.2.1, rest.2.2)

/-- Position of the first divergence between the old table's child lists
(padded with default rows) and the new table's, scanning the length of the
new table — the position at which `update_menu`'s loop `break`s. -/
def firstDiv (default : α) (old new : List (TableRow α)) : Option Nat :=
  match new with
  | [] => none
  | (_, newChilds) :: newRest =>
    if (old.headD (default, [])).2 ≠ newChilds then some 0
    else (firstDiv default old.tail newRest).map (· + 1)

/-- Rust `InnerState::update_menu` (src/service.rs lines 355-420), given the
freshly rebuilt table `newTable`: on a structural change (`layout_updated`)
bump the revision by 1 and the offset by the *previous* table's length and
emit `LayoutUpdated(parent = 0, new revision)`; otherwise, if any per-row
property delta was collected, emit `ItemsPropertiesUpdated`; otherwise emit
nothing.  The new table replaces the cache in every case. -/
def update_menu (diff : α → α → Option (RowDiff ν)) (default : α)
    (st : MenuState α ν) (newTable : List (TableRow α)) :
    MenuState α ν × Option (MenuNote ν) :=
  let w := diffWalk diff default (index2id st.offset) st.table newTable 0
  if w.2.2 then
    ({ table := newTable
       offset := st.offset + (st.table.length : Int)
       revision := st.revision + 1 },
     some (.layoutUpdated 0 (st.revision + 1)))
  else if !w.1.isEmpty || !w.2.1.isEmpty then
    ({ st with table := newTable }, some (.itemsPropertiesUpdated w.1 w.2.1))
  else
    ({ st with table := newTable }, none)

/-!  D-Bus-facing service methods (src/service.rs, `impl Dbusmenu for
InnerState<T>`, lines 645-783). -/

/-- A D-Bus variant value as produced by `RawMenuItem::to_dbus_map`
(vendor-specific variants are omitted together with their field). -/
inductive DbusValue where
  | str (s : String)
  | bool (b : Bool)
  | bytes (b : List Nat)
  | shortcut (s : List (List String))
  | int (i : Int)
  deriving DecidableEq, Repr

/-- Rust `impl fmt::Display for ItemType` (src/menu.rs). -/
def ItemType.text : ItemType → String
  | .standard => "standard"
  | .sepatator => "separator"

/-- Rust `impl fmt::Display for ToggleType` (src/menu.rs). -/
def ToggleType.text : ToggleType → String
  | .checkmark => "checkmark"
  | .radio => "radio"
  | .null => ""

/-- Rust `ToggleState as i32` (src/menu.rs): `Off = 0`, `On = 1`,
`Indeterminate = -1`. -/
def ToggleState.code : ToggleState → Int
  | .off => 0
  | .on => 1
  | .indeterminate => -1

/-- Rust `RawMenuItem::to_dbus_map` (src/menu.rs lines 349-396): for each
property, insert it when it passes the name filter (an empty filter passes
everything) and its value differs from the default item's.  The Rust
`HashMap` is modelled as an association list in insertion order (the claims
never depend on map ordering); the `disposition` field is, as in the
source, never inserted, and vendor properties are omitted. -/
def to_dbus_map (item : RawMenuItem) (filter : List String) :
    List (String × DbusValue) :=
  let keep : String → Bool := fun name => filter.isEmpty || filter.contains name
  let d := RawMenuItem.default
  (if keep "type" && item.itype ≠ d.itype then [("type", .str item.itype.text)] else [])
  ++ (if keep "label" && item.label ≠ d.label then [("label", .str item.label)] else [])
  ++ (if keep "enabled" && item.enabled ≠ d.enabled then [("enabled", .bool item.enabled)] else [])
  ++ (if keep "visible" && item.visible ≠ d.visible then [("visible", .bool item.visible)] else [])
  ++ (if keep "icon-name" && item.icon_name ≠ d.icon_name then [("icon-name", .str item.icon_name)] else [])
  ++ (if keep "icon-data" && item.icon_data ≠ d.icon_data then [("icon-data", .bytes item.icon_data)] else [])
  ++ (if keep "shortcut" && item.shortcut ≠ d.shortcut then [("shortcut", .shortcut item.shortcut)] else [])
  ++ (if keep "toggle-type" && item.toggle_type ≠ d.toggle_type then [("toggle-type", .str item.toggle_type.text)] else [])
  ++ (if keep "toggle-state" && item.toggle_state ≠ d.toggle_state then [("toggle-state", .int item.toggle_state.code)] else [])

/-- Outcome of a D-Bus method handler: a returned value, a returned D-Bus
method error (`dbus::MethodErr`), or a Rust panic (`unwrap` on `None`,
out-of-range `Vec` indexing, failed `assert_ne!`) which unwinds out of the
handler instead of producing a reply. -/
inductive DbusResult (ρ : Type) where
  | ok (value : ρ)
  | methodErr (message : String)
  | panic
  deriving DecidableEq, Repr

/-- The service state the menu methods read and write: the application
model `T` behind the `Handle`'s mutex plus the menu-side fields of
`InnerState` (the SNI `PropertiesCache` only feeds item-side signals and
is not modelled). -/
structure Service (σ : Type) where
  model : σ
  table : List MenuRow
  offset : Int
  revision : Nat

/-- The pieces of `Tray`/`RawMenuItem<T>` behaviour the service calls that
are not first-order data in this snapshot: the application's `Tray::menu`,
the per-row property diff `RawMenuItem::diff` (absent from the snapshot,
see the module conventions), and the per-row `on_clicked` closure, given
the row's item, the model and the row index. -/
structure TrayImpl (σ : Type) where
  menuOf : σ → List MenuItem
  diff : RawMenuItem → RawMenuItem → Option (RowDiff DbusValue)
  onClicked : RawMenuItem → σ → Nat → σ

/-- Rust `InnerState::update_immediately` (src/service.rs lines 246-253): apply
the mutation to the model under the lock, then run a diff-and-notify cycle
(`update_properties`, which touches only the SNI property cache and
item-side signals, is not modelled; `update_menu` rebuilds the table from
`T::menu` via `menu_flatten` and diffs it).  Returns the new state and the
emitted menu notification, if any. -/
def update_immediately (impl : TrayImpl σ) (svc : Service σ) (f : σ → σ) :
    Service σ × Option (MenuNote DbusValue) :=
  let model := f svc.model
  let newMenu := menu_flatten (impl.menuOf model)
  let r := update_menu impl.diff RawMenuItem.default
    ⟨svc.table, svc.offset, svc.revision⟩ newMenu
  ({ model := model
     table := r.1.table
     offset := r.1.offset
     revision := r.1.revision }, r.2)

/-- What one `Dbusmenu::event` call did: its D-Bus outcome, the state it
left behind, the row indices whose click handler ran, and the menu
notification it emitted, if any. -/
structure EventOut (σ : Type) where
  result : DbusResult Unit
  svc : Service σ
  clicked : List Nat
  note : Option (MenuNote DbusValue)

/-- Rust `Dbusmenu::event for InnerState` (src/service.rs lines 707-726): only
`event_id == "clicked"` does anything; it asserts the identity is not the
root (`assert_ne!(id, 0, "ROOT MENU ITEM CLICKED")` — a panic on failure),
resolves the identity (`.unwrap()` — a panic for a stale identity), reads
the row (out-of-range indexing — a panic for an identity past the table),
and runs the row's click handler through `update_immediately`.  Any other
`event_id` is ignored and the call returns `Ok(())`. -/
def event (impl : TrayImpl σ) (svc : Service σ) (id : Int) (event_id : String)
    (_data : DbusValue) (_timestamp : Nat) : EventOut σ :=
  if event_id = "clicked" then
    if id = 0 then
      ⟨.panic, svc, [], none⟩
    else
      match id2index svc.offset id with
      | none => ⟨.panic, svc, [], none⟩
      | some index =>
        if h : index < svc.table.length then
          let row := svc.table.get ⟨index, h⟩
          let r := update_immediately impl svc (fun m => impl.onClicked row.1 m index)
          ⟨.ok (), r.1, [index], r.2⟩
        else
          ⟨.panic, svc, [], none⟩
  else
    ⟨.ok (), svc, [], none⟩

/-- Outcome of running a sequence of events (the `for` loop of
`event_group`): combined D-Bus outcome, final state, row indices clicked in
order, and the menu notifications emitted in order. -/
structure RunOut (σ : Type) where
  result : DbusResult Unit
  svc : Service σ
  clicked : List Nat
  notes : List (MenuNote DbusValue)

/-- One entry of an `EventGroup` batch:
`(id, event_id, data, timestamp)`. -/
abbrev GEvent := Int × String × DbusValue × Nat

/-- The `for` loop of `event_group` (src/service.rs lines 741-743): call
`event` on each entry in order; a method error propagates via `?` and a
panic unwinds, both stopping the loop (mutations already applied are kept). -/
def runEvents (impl : TrayImpl σ) (svc : Service σ) : List GEvent → RunOut σ
  | [] => ⟨.ok (), svc, [], []⟩
  | e :: rest =>
    let o := event impl svc e.1 e.2.1 e.2.2.1 e.2.2.2
    match o.result with
    | .ok _ =>
      let r := runEvents impl o.svc rest
      ⟨r.result, r.svc, o.clicked ++ r.clicked, o.note.toList ++ r.notes⟩
    | .methodErr m => ⟨.methodErr m, o.svc, o.clicked, o.note.toList⟩
    | .panic => ⟨.panic, o.svc, o.clicked, o.note.toList⟩

/-- What one `Dbusmenu::event_group` call did. -/
structure GroupOut (σ : Type) where
  result : DbusResult (List Int)
  svc : Service σ
  clicked : List Nat
  notes : List (MenuNote DbusValue)

/-- Rust `Dbusmenu::event_group for InnerState` (src/service.rs lines 728-745):
partition the batch by `id2index(id).is_some() && index < len(table)`;
an all-invalid batch returns `MethodErr::invalid_arg`; otherwise the found
entries are passed to `event` in order and the not-found identities are
returned. -/
def event_group (impl : TrayImpl σ) (svc : Service σ) (events : List GEvent) :
    GroupOut σ :=
  let p := events.partition (fun e =>
    match id2index svc.offset e.1 with
    | some index => decide (index < svc.table.length)
    | none => false)
  if p.1.isEmpty then
    ⟨.methodErr "None of the id in the events can be found", svc, [], []⟩
  else
    let r := runEvents impl svc p.1
    match r.result with
    | .ok _ => ⟨.ok (p.2.map (fun e => e.1)), r.svc, r.clicked, r.notes⟩
    | .methodErr m => ⟨.methodErr m, r.svc, r.clicked, r.notes⟩
    | .panic => ⟨.panic, r.svc, r.clicked, r.notes⟩

/-- Rust `Dbusmenu::get_property for InnerState` (src/service.rs lines 697-705):
`self.id2index(id).unwrap()` (panic on a stale identity), row read (panic
past the table), then `props.remove(name).unwrap()` (panic when the
property is absent from the filtered map). -/
def get_property (svc : Service σ) (id : Int) (name : String) :
    DbusResult DbusValue :=
  match id2index svc.offset id with
  | none => .panic
  | some index =>
    if h : index < svc.table.length then
      match (to_dbus_map (svc.table.get ⟨index, h⟩).1 [name]).lookup name with
      | some v => .ok v
      | none => .panic
    else
      .panic

/-- Rust `Dbusmenu::get_group_properties for InnerState` (src/service.rs lines
676-695): map each requested identity through `id2index(id).unwrap()`
(panic on a stale identity) and a row read (panic past the table), pairing
it with the row's filtered property map. -/
def get_group_properties (svc : Service σ) (ids : List Int)
    (property_names : List String) :
    DbusResult (List (Int × List (String × DbusValue))) :=
  match ids with
  | [] => .ok []
  | id :: rest =>
    match id2index svc.offset id with
    | none => .panic
    | some index =>
      if h : index < svc.table.length then
        match get_group_properties svc rest property_names with
        | .ok tail =>
          .ok ((id, to_dbus_map (svc.table.get ⟨index, h⟩).1 property_names) :: tail)
        | other => other
      else
        .panic

/-!  Concrete fixtures used by the closed evaluation theorems below. -/

/-- A trivial tray implementation over a unit model: empty menu, no
per-row property changes, handlers with no effect. -/
def trayImplFix : TrayImpl Unit :=
  { menuOf := fun _ => []
    diff := fun _ _ => none
    onClicked := fun _ m _ => m }

/-- The row a default `StandardItem` flattens to. -/
def stdRow : MenuRow := (StandardItem.default.toRaw, [])

/-- A service whose table came from a one-item menu (root plus one leaf)
and which has already gone through one structural change of a six-row
table, so its identity offset is 6: every identity issued before that
change (1..5) is stale. -/
def svcStale : Service Unit :=
  { model := (), table := [(RawMenuItem.default, [1]), stdRow], offset := 6, revision := 1 }

/-- A freshly started service (offset 0) with a root row and one leaf. -/
def svcZero : Service Unit :=
  { model := (), table := [(RawMenuItem.default, [1]), stdRow], offset := 0, revision := 0 }

/-- Scenario A of the specification: a 2-level menu of one submenu with two
leaves, one separator, and one top-level leaf. -/
def scenarioA : List MenuItem :=
  [ .subMenu "sub" true true "" [] [] .normal
      [ .standard { StandardItem.default with label := "leaf1" },
        .standard { StandardItem.default with label := "leaf2" } ],
    .sepatator,
    .standard { StandardItem.default with label := "top" } ]

/-!  Theorems. -/

/-- Claim C2, counterexample:  The claim states that for `id ≠ 0`,
`id2index id` is defined iff `offset < id < offset + len(table)`, in
particular `none` for `id ≥ offset + len(table)`.  On the freshly started
two-row service, identity 5 is at or past `offset + len = 2`, yet
`id2index` resolves it to index 5: the upper bound is not checked. -/
theorem id2index_no_upper_bound_cex :
    id2index svcZero.offset 5 = some 5 ∧
    ¬(svcZero.offset < 5 ∧ (5 : Int) < svcZero.offset + (svcZero.table.length : Int)) := by
  constructor
  · decide
  · decide

/-- Claim C2, amended:  For every `id ≠ 0`, `id2index offset id` is
`some (id - offset)` exactly when `offset < id`, and `none` otherwise; no
upper bound against the table length is applied (callers needing one, such
as `event_group`, must check it themselves). -/
theorem id2index_defined_iff_above_offset (offset id : Int) (h : id ≠ 0) :
    id2index offset id = if offset < id then some (id - offset).toNat else none := by
  unfold id2index
  rw [if_neg h]
  by_cases hlt : offset < id
  · rw [if_pos hlt, if_pos (by omega : id - offset > 0)]
  · rw [if_neg hlt, if_neg (by omega : ¬id - offset > 0)]

/-- Closed witness for `id2index_defined_iff_above_offset`. -/
theorem id2index_defined_iff_above_offset_witness :
    (5 : Int) ≠ 0 ∧ id2index 3 5 = some 2 := by
  refine ⟨by decide, ?_⟩
  rw [id2index_defined_iff_above_offset 3 5 (by decide)]
  decide

/-- Claim C6:  Identity round-trip: for any table length `len`, any row index
`i < len` and any offset the service can currently hold (the offset starts
at 0 and only ever grows by table lengths, so it is non-negative),
`id2index (index2id i) = some i`. -/
theorem identity_round_trip (offset : Int) (len i : Nat)
    (hoff : 0 ≤ offset) (_hlen : i < len) :
    id2index offset (index2id offset i) = some i := by
  unfold id2index index2id
  by_cases h0 : i = 0
  · subst h0
    simp
  · rw [if_neg h0, if_neg (by omega : ¬(i : Int) + offset = 0),
      if_pos (by omega : (i : Int) + offset - offset > 0)]
    congr 1
    omega

/-- Closed witness for `identity_round_trip`. -/
theorem identity_round_trip_witness :
    (0 : Int) ≤ 3 ∧ 1 < 2 ∧ id2index 3 (index2id 3 1) = some 1 :=
  ⟨by decide, by decide, identity_round_trip 3 2 1 (by decide) (by decide)⟩

/-- Claim C1, code-bug evaluation:  On a service whose offset has advanced
to 6, the pre-change identity 3 is stale; `GetProperty`, then
`GetGroupProperties`, then `Event(.., "clicked", ..)` on it all *panic*
(`Option::unwrap` on `None` in the source) instead of returning the
invalid-argument error the specification promises; an identity past the
table (100 on a fresh two-row service) panics through out-of-range
indexing.  The menu state is untouched up to the panic point. -/
theorem stale_identity_panics :
    get_property svcStale 3 "label" = DbusResult.panic
    ∧ get_group_properties svcStale [3] ["label"] = DbusResult.panic
    ∧ (event trayImplFix svcStale 3 "clicked" (DbusValue.str "") 0).result
        = DbusResult.panic
    ∧ (event trayImplFix svcStale 3 "clicked" (DbusValue.str "") 0).svc = svcStale
    ∧ get_property svcZero 100 "label" = DbusResult.panic := by
  refine ⟨by decide, by rfl, by decide, by rfl, by decide⟩

/-- Claim C10:  For every `event_id` other than `"clicked"`, `Event`
succeeds without validating the identity at all: it returns `Ok(())`,
invokes no click handler, emits no menu notification, and leaves the whole
service state (model, table, offset, revision) unchanged. -/
theorem non_clicked_event_noop (impl : TrayImpl σ) (svc : Service σ)
    (id : Int) (event_id : String) (data : DbusValue) (timestamp : Nat)
    (h : event_id ≠ "clicked") :
    event impl svc id event_id data timestamp = ⟨.ok (), svc, [], none⟩ := by
  unfold event
  rw [if_neg h]

/-- Closed witness for `non_clicked_event_noop`: an `"opened"` event on a
stale identity still succeeds and changes nothing. -/
theorem non_clicked_event_noop_witness :
    "opened" ≠ "clicked" ∧
    event trayImplFix svcStale 3 "opened" (DbusValue.str "") 0
      = ⟨.ok (), svcStale, [], none⟩ :=
  ⟨by decide,
   non_clicked_event_noop trayImplFix svcStale 3 "opened" (DbusValue.str "") 0 (by decide)⟩

/-- Claim C9, counterexample:  In an `EventGroup` batch the entry
`(0, "clicked", ..)` *does* resolve to a row of the current table (row 0,
the root), so the claim promises it is applied and the call returns the
empty not-found list; instead dispatching it trips the defensive
`assert_ne!(id, 0, "ROOT MENU ITEM CLICKED")` and the whole call panics,
with no handler having run. -/
theorem event_group_root_click_cex :
    (event_group trayImplFix svcZero [(0, "clicked", DbusValue.str "", 0)]).result
      = DbusResult.panic
    ∧ (event_group trayImplFix svcZero [(0, "clicked", DbusValue.str "", 0)]).clicked
      = [] := by
  constructor
  · rfl
  · rfl

/-- Claim C9, amended:  `event_group` splits the batch, preserving order,
into the entries whose identity resolves to a row of the current table and
the rest.  A batch with zero resolving entries returns a hard
invalid-argument failure, with state unchanged and nothing dispatched.
Otherwise the resolving entries are dispatched to `event` in order and,
provided that run completes without panicking (a `"clicked"` on the root
identity 0 trips the defensive root-click assertion, and a click that
structurally changes the menu can invalidate the identities of later
entries of the same batch), the call returns exactly the non-resolving
identities, in original order, as its not-found list, together with the
state, clicks and notifications the run produced. -/
theorem event_group_partition_spec (impl : TrayImpl σ) (svc : Service σ)
    (events : List GEvent) :
    (events.filter (fun e =>
        match id2index svc.offset e.1 with
        | some index => decide (index < svc.table.length)
        | none => false) = [] →
      event_group impl svc events
        = ⟨.methodErr "None of the id in the events can be found", svc, [], []⟩)
    ∧ (∀ svc' clicked notes,
        events.filter (fun e =>
          match id2index svc.offset e.1 with
          | some index => decide (index < svc.table.length)
          | none => false) ≠ [] →
        runEvents impl svc (events.filter (fun e =>
          match id2index svc.offset e.1 with
          | some index => decide (index < svc.table.length)
          | none => false)) = ⟨.ok (), svc', clicked, notes⟩ →
        event_group impl svc events
          = ⟨.ok ((events.filter (not ∘ fun e =>
                match id2index svc.offset e.1 with
                | some index => decide (index < svc.table.length)
                | none => false)).map (fun e => e.1)),
             svc', clicked, notes⟩) := by
  constructor
  · intro hempty
    simp only [event_group, List.partition_eq_filter_filter]
    rw [hempty]
    rfl
  · intro svc' clicked notes hne hrun
    simp only [event_group, List.partition_eq_filter_filter]
    have hne' : ¬((events.filter (fun e =>
        match id2index svc.offset e.1 with
        | some index => decide (index < svc.table.length)
        | none => false)).isEmpty = true) := by
      intro hemp
      exact hne (List.isEmpty_iff.mp hemp)
    rw [if_neg hne']
    rw [hrun]

/-- Closed witness for `event_group_partition_spec`: on the offset-6
service, a batch with the valid identity 7 and the stale identity 3 (both
carrying a non-`"clicked"` event) succeeds and returns exactly `[3]` as the
not-found list, state unchanged. -/
theorem event_group_partition_spec_witness :
    event_group trayImplFix svcStale
        [(7, "x", DbusValue.str "", 0), (3, "x", DbusValue.str "", 0)]
      = ⟨.ok [3], svcStale, [], []⟩ := by
  have h := (event_group_partition_spec trayImplFix svcStale
      [(7, "x", DbusValue.str "", 0), (3, "x", DbusValue.str "", 0)]).2
      svcStale [] [] (by decide) (by rfl)
  rw [h]
  rfl

/-!  Lemmas about `modifyAt` / `pushChildren`: the in-place child-list
update of `menu_flatten` commutes with appending rows past the updated
position. -/

theorem length_modifyAt (l : List MenuRow) (n : Nat) (f : MenuRow → MenuRow) :
    (modifyAt l n f).length = l.length := by
  induction l generalizing n with
  | nil => rfl
  | cons x xs ih => cases n <;> simp [modifyAt, ih]

theorem modifyAt_append_left (l r : List MenuRow) (n : Nat) (f : MenuRow → MenuRow)
    (h : n < l.length) :
    modifyAt (l ++ r) n f = modifyAt l n f ++ r := by
  induction l generalizing n with
  | nil => simp at h
  | cons x xs ih =>
    cases n with
    | zero => simp [modifyAt]
    | succ n =>
      simp only [List.cons_append, modifyAt, List.cons.injEq, true_and]
      exact ih n (by simpa using h)

theorem modifyAt_append_at (l : List MenuRow) (x : MenuRow) (r : List MenuRow)
    (f : MenuRow → MenuRow) :
    modifyAt (l ++ x :: r) l.length f = l ++ f x :: r := by
  induction l with
  | nil => rfl
  | cons y ys ih => simp [modifyAt, ih]

theorem modifyAt_modifyAt (l : List MenuRow) (n : Nat) (f g : MenuRow → MenuRow) :
    modifyAt (modifyAt l n f) n g = modifyAt l n (fun a => g (f a)) := by
  induction l generalizing n with
  | nil => rfl
  | cons x xs ih => cases n <;> simp [modifyAt, ih]

theorem pushChildren_nil (l : List MenuRow) (p : Nat) : pushChildren l p [] = l := by
  unfold pushChildren
  have hf : (fun (r : MenuRow) => (r.1, r.2 ++ ([] : List Nat))) = fun r => r := by
    funext r
    simp
  rw [hf]
  induction l generalizing p with
  | nil => rfl
  | cons x xs ih => cases p <;> simp [modifyAt, ih]

theorem pushChildren_length (l : List MenuRow) (p : Nat) (cs : List Nat) :
    (pushChildren l p cs).length = l.length :=
  length_modifyAt l p _

theorem pushChildren_append_left (l r : List MenuRow) (p : Nat) (cs : List Nat)
    (h : p < l.length) :
    pushChildren (l ++ r) p cs = pushChildren l p cs ++ r :=
  modifyAt_append_left l r p _ h

theorem pushChildren_append_at (l : List MenuRow) (x : MenuRow) (r : List MenuRow)
    (cs : List Nat) :
    pushChildren (l ++ x :: r) l.length cs = l ++ (x.1, x.2 ++ cs) :: r :=
  modifyAt_append_at l x r _

theorem pushChildren_pushChildren (l : List MenuRow) (p : Nat) (cs ds : List Nat) :
    pushChildren (pushChildren l p cs) p ds = pushChildren l p (cs ++ ds) := by
  unfold pushChildren
  rw [modifyAt_modifyAt]
  congr 1
  funext a
  simp

/-!  Equation lemmas for the `menu_flatten` worklist loop and the reference
builder (both are well-founded recursions, so we expose one rewrite per
case). -/

theorem flattenLoop_nil (list : List MenuRow) : flattenLoop [] list = list := by
  rw [flattenLoop]

theorem flattenLoop_done (p : Nat) (stack : List (List MenuItem × Nat))
    (list : List MenuRow) :
    flattenLoop (([], p) :: stack) list = flattenLoop stack list := by
  rw [flattenLoop]

theorem flattenLoop_standard (it : StandardItem) (rest : List MenuItem) (p : Nat)
    (stack : List (List MenuItem × Nat)) (list : List MenuRow) :
    flattenLoop ((MenuItem.standard it :: rest, p) :: stack) list
      = flattenLoop ((rest, p) :: stack)
          (pushChildren (list ++ [(it.toRaw, [])]) p [list.length]) := by
  rw [flattenLoop]

theorem flattenLoop_sepatator (rest : List MenuItem) (p : Nat)
    (stack : List (List MenuItem × Nat)) (list : List MenuRow) :
    flattenLoop ((MenuItem.sepatator :: rest, p) :: stack) list
      = flattenLoop ((rest, p) :: stack)
          (pushChildren (list ++ [(sepatatorRaw, [])]) p [list.length]) := by
  rw [flattenLoop]

theorem flattenLoop_checkmark (it : CheckmarkItem) (rest : List MenuItem) (p : Nat)
    (stack : List (List MenuItem × Nat)) (list : List MenuRow) :
    flattenLoop ((MenuItem.checkmark it :: rest, p) :: stack) list
      = flattenLoop ((rest, p) :: stack)
          (pushChildren (list ++ [(it.toRaw, [])]) p [list.length]) := by
  rw [flattenLoop]

theorem flattenLoop_radioGroup (rest : List MenuItem) (p : Nat)
    (stack : List (List MenuItem × Nat)) (list : List MenuRow) :
    flattenLoop ((MenuItem.radioGroup :: rest, p) :: stack) list
      = flattenLoop ((rest, p) :: stack) list := by
  rw [flattenLoop]

theorem flattenLoop_subMenu (lb : String) (en vi : Bool) (ic : String)
    (da : List Nat) (sc : List (List String)) (di : ItemDisposition)
    (submenu rest : List MenuItem) (p : Nat)
    (stack : List (List MenuItem × Nat)) (list : List MenuRow) :
    flattenLoop ((MenuItem.subMenu lb en vi ic da sc di submenu :: rest, p) :: stack) list
      = (if submenu.isEmpty then
          flattenLoop ((rest, p) :: stack)
            (pushChildren (list ++ [(subMenuToRaw lb en vi ic da sc di, [])]) p [list.length])
        else
          flattenLoop ((submenu, list.length) :: (rest, p) :: stack)
            (pushChildren (list ++ [(subMenuToRaw lb en vi ic da sc di, [])]) p [list.length])) := by
  rw [flattenLoop]

theorem buildForest_nil (s : Nat) : buildForest s [] = ([], []) := by
  rw [buildForest]

theorem buildForest_radioGroup (s : Nat) (rest : List MenuItem) :
    buildForest s (MenuItem.radioGroup :: rest) = buildForest s rest := by
  rw [buildForest]

theorem buildForest_standard (s : Nat) (it : StandardItem) (rest : List MenuItem) :
    buildForest s (MenuItem.standard it :: rest)
      = ((it.toRaw, []) :: (buildForest (s + 1) rest).1,
         s :: (buildForest (s + 1) rest).2) := by
  rw [buildForest]

theorem buildForest_sepatator (s : Nat) (rest : List MenuItem) :
    buildForest s (MenuItem.sepatator :: rest)
      = ((sepatatorRaw, []) :: (buildForest (s + 1) rest).1,
         s :: (buildForest (s + 1) rest).2) := by
  rw [buildForest]

theorem buildForest_checkmark (s : Nat) (it : CheckmarkItem) (rest : List MenuItem) :
    buildForest s (MenuItem.checkmark it :: rest)
      = ((it.toRaw, []) :: (buildForest (s + 1) rest).1,
         s :: (buildForest (s + 1) rest).2) := by
  rw [buildForest]

theorem buildForest_subMenu (s : Nat) (lb : String) (en vi : Bool) (ic : String)
    (da : List Nat) (sc : List (List String)) (di : ItemDisposition)
    (submenu rest : List MenuItem) :
    buildForest s (MenuItem.subMenu lb en vi ic da sc di submenu :: rest)
      = ((subMenuToRaw lb en vi ic da sc di, (buildForest (s + 1) submenu).2)
            :: ((buildForest (s + 1) submenu).1
                ++ (buildForest (s + 1 + (buildForest (s + 1) submenu).1.length) rest).1),
         s :: (buildForest (s + 1 + (buildForest (s + 1) submenu).1.length) rest).2) := by
  rw [buildForest]

/-- Glue step for a childless row: pushing the row, registering it with its
parent, and then appending the rest of the forest's rows and the parent's
remaining children is the same as doing it all at once. -/
theorem glue_leaf (list R1 : List MenuRow) (R2 : List Nat) (parent : Nat)
    (x : MenuRow) (h : parent < list.length) :
    pushChildren (pushChildren (list ++ [x]) parent [list.length] ++ R1) parent R2
      = pushChildren (list ++ x :: R1) parent (list.length :: R2) := by
  have hP : parent < (pushChildren list parent [list.length]).length := by
    rw [pushChildren_length]
    exact h
  calc pushChildren (pushChildren (list ++ [x]) parent [list.length] ++ R1) parent R2
      = pushChildren ((pushChildren list parent [list.length] ++ [x]) ++ R1) parent R2 := by
        rw [pushChildren_append_left list [x] parent [list.length] h]
    _ = pushChildren (pushChildren list parent [list.length] ++ (x :: R1)) parent R2 := by
        rw [List.append_assoc, List.singleton_append]
    _ = pushChildren (pushChildren list parent [list.length]) parent R2 ++ (x :: R1) := by
        rw [pushChildren_append_left _ _ _ _ hP]
    _ = pushChildren list parent ([list.length] ++ R2) ++ (x :: R1) := by
        rw [pushChildren_pushChildren]
    _ = pushChildren list parent (list.length :: R2) ++ (x :: R1) := by
        rw [List.singleton_append]
    _ = pushChildren (list ++ x :: R1) parent (list.length :: R2) := by
        rw [pushChildren_append_left _ _ _ _ h]

/-- Glue step for a submenu row: pushing the row, registering it with its
parent, filling in its own children `S2` and subtree rows `S1`, then the
rest of the forest, is the same as building the finished row directly. -/
theorem glue_sub (list S1 R1 : List MenuRow) (S2 R2 : List Nat) (parent : Nat)
    (row : RawMenuItem) (h : parent < list.length) :
    pushChildren
        (pushChildren
          (pushChildren (list ++ [(row, [])]) parent [list.length] ++ S1)
          list.length S2
         ++ R1) parent R2
      = pushChildren (list ++ (row, S2) :: (S1 ++ R1)) parent (list.length :: R2) := by
  have hP : parent < (pushChildren list parent [list.length]).length := by
    rw [pushChildren_length]
    exact h
  have hlen : list.length = (pushChildren list parent [list.length]).length := by
    rw [pushChildren_length]
  calc pushChildren
        (pushChildren
          (pushChildren (list ++ [(row, [])]) parent [list.length] ++ S1)
          list.length S2 ++ R1) parent R2
      = pushChildren
          (pushChildren ((pushChildren list parent [list.length] ++ [(row, [])]) ++ S1)
            list.length S2 ++ R1) parent R2 := by
        rw [pushChildren_append_left list [(row, [])] parent [list.length] h]
    _ = pushChildren
          (pushChildren (pushChildren list parent [list.length] ++ ((row, []) :: S1))
            (pushChildren list parent [list.length]).length S2 ++ R1) parent R2 := by
        rw [List.append_assoc, List.singleton_append, ← hlen]
    _ = pushChildren
          ((pushChildren list parent [list.length] ++ ((row, ([] : List Nat) ++ S2)) :: S1)
            ++ R1) parent R2 := by
        rw [pushChildren_append_at]
    _ = pushChildren
          (pushChildren list parent [list.length] ++ ((row, S2) :: (S1 ++ R1)))
          parent R2 := by
        rw [List.append_assoc, List.cons_append, List.nil_append]
    _ = pushChildren (pushChildren list parent [list.length]) parent R2
          ++ ((row, S2) :: (S1 ++ R1)) := by
        rw [pushChildren_append_left _ _ _ _ hP]
    _ = pushChildren list parent (list.length :: R2) ++ ((row, S2) :: (S1 ++ R1)) := by
        rw [pushChildren_pushChildren, List.singleton_append]
    _ = pushChildren (list ++ (row, S2) :: (S1 ++ R1)) parent (list.length :: R2) := by
        rw [pushChildren_append_left _ _ _ _ h]

/-- Simulation lemma: processing the work frame `(m, parent)` in the
`menu_flatten` loop appends exactly the depth-first rows of `m` built by
the reference `buildForest` and registers `m`'s top-level rows as children
of `parent`. -/
theorem flattenLoop_eq (m : List MenuItem) (parent : Nat)
    (stack : List (List MenuItem × Nat)) (list : List MenuRow)
    (h : parent < list.length) :
    flattenLoop ((m, parent) :: stack) list
      = flattenLoop stack
          (pushChildren (list ++ (buildForest list.length m).1) parent
            (buildForest list.length m).2) := by
  match m with
  | [] =>
    rw [flattenLoop_done, buildForest_nil]
    simp [pushChildren_nil]
  | MenuItem.radioGroup :: rest =>
    rw [flattenLoop_radioGroup, buildForest_radioGroup]
    exact flattenLoop_eq rest parent stack list h
  | MenuItem.standard it :: rest =>
    rw [flattenLoop_standard, buildForest_standard]
    rw [flattenLoop_eq rest parent stack _
      (by rw [pushChildren_length]; simp; omega)]
    congr 1
    rw [pushChildren_length, List.length_append, List.length_cons, List.length_nil]
    exact glue_leaf list _ _ parent (it.toRaw, []) h
  | MenuItem.sepatator :: rest =>
    rw [flattenLoop_sepatator, buildForest_sepatator]
    rw [flattenLoop_eq rest parent stack _
      (by rw [pushChildren_length]; simp; omega)]
    congr 1
    rw [pushChildren_length, List.length_append, List.length_cons, List.length_nil]
    exact glue_leaf list _ _ parent (sepatatorRaw, []) h
  | MenuItem.checkmark it :: rest =>
    rw [flattenLoop_checkmark, buildForest_checkmark]
    rw [flattenLoop_eq rest parent stack _
      (by rw [pushChildren_length]; simp; omega)]
    congr 1
    rw [pushChildren_length, List.length_append, List.length_cons, List.length_nil]
    exact glue_leaf list _ _ parent (it.toRaw, []) h
  | MenuItem.subMenu lb en vi ic da sc di submenu :: rest =>
    rw [flattenLoop_subMenu, buildForest_subMenu]
    by_cases hemp : submenu.isEmpty
    · rw [if_pos hemp]
      obtain rfl : submenu = [] := by
        cases submenu
        · rfl
        · simp at hemp
      rw [buildForest_nil]
      rw [flattenLoop_eq rest parent stack _
        (by rw [pushChildren_length]; simp; omega)]
      congr 1
      rw [pushChildren_length, List.length_append, List.length_cons, List.length_nil]
      simp only [List.length_nil, Nat.add_zero, List.nil_append]
      exact glue_leaf list _ _ parent (subMenuToRaw lb en vi ic da sc di, []) h
    · rw [if_neg hemp]
      rw [flattenLoop_eq submenu list.length ((rest, parent) :: stack) _
        (by rw [pushChildren_length]; simp)]
      rw [pushChildren_length, List.length_append, List.length_cons, List.length_nil]
      rw [flattenLoop_eq rest parent stack _
        (by rw [pushChildren_length, List.length_append, pushChildren_length,
              List.length_append]; simp; omega)]
      congr 1
      rw [pushChildren_length, List.length_append, pushChildren_length,
        List.length_append, List.length_cons, List.length_nil]
      exact glue_sub list _ _ _ _ parent (subMenuToRaw lb en vi ic da sc di) h
  termination_by menuSize m
  decreasing_by
    all_goals simp [menuSize, MenuItem.size]
    all_goals omega

/-- The function `menu_flatten` agrees with the reference builder: the synthetic root
row carries the top-level indices, followed by the depth-first rows. -/
theorem menu_flatten_eq_buildForest (items : List MenuItem) :
    menu_flatten items
      = (RawMenuItem.default, (buildForest 1 items).2) :: (buildForest 1 items).1 := by
  unfold menu_flatten
  rw [flattenLoop_eq items 0 [] [(RawMenuItem.default, [])] (by simp)]
  rw [flattenLoop_nil]
  simp only [List.length_singleton]
  rw [List.singleton_append]
  unfold pushChildren modifyAt
  simp

/-- The reference builder produces one row per non-`RadioGroup` node. -/
theorem buildForest_length (m : List MenuItem) :
    ∀ s : Nat, (buildForest s m).1.length = countRows m := by
  match m with
  | [] =>
    intro s
    rw [buildForest_nil, countRows]
    rfl
  | MenuItem.radioGroup :: rest =>
    intro s
    rw [buildForest_radioGroup, countRows]
    exact buildForest_length rest s
  | MenuItem.standard it :: rest =>
    intro s
    rw [buildForest_standard, countRows]
    simp only [List.length_cons]
    rw [buildForest_length rest (s + 1)]
    omega
  | MenuItem.sepatator :: rest =>
    intro s
    rw [buildForest_sepatator, countRows]
    simp only [List.length_cons]
    rw [buildForest_length rest (s + 1)]
    omega
  | MenuItem.checkmark it :: rest =>
    intro s
    rw [buildForest_checkmark, countRows]
    simp only [List.length_cons]
    rw [buildForest_length rest (s + 1)]
    omega
  | MenuItem.subMenu lb en vi ic da sc di submenu :: rest =>
    intro s
    rw [buildForest_subMenu, countRows]
    simp only [List.length_cons, List.length_append]
    rw [buildForest_length rest (s + 1 + (buildForest (s + 1) submenu).1.length),
      buildForest_length submenu (s + 1)]
    omega
  termination_by menuSize m
  decreasing_by
    all_goals simp [menuSize, MenuItem.size]
    all_goals omega

/-- Claim C7, counterexample:  The claim promises one row per input
`MenuNode`; but `menu_flatten` consumes a `RadioGroup` node without
producing any row (`MenuItem::RadioGroup(group) => ()` in src/menu.rs), so
the one-node menu `[RadioGroup]` flattens to the root row alone. -/
theorem menu_flatten_drops_radio_group_cex :
    menu_flatten [MenuItem.radioGroup] = [(RawMenuItem.default, [])]
    ∧ countNodes [MenuItem.radioGroup] = 1
    ∧ (menu_flatten [MenuItem.radioGroup]).length
        ≠ 1 + countNodes [MenuItem.radioGroup] := by
  have h : menu_flatten [MenuItem.radioGroup] = [(RawMenuItem.default, [])] := by
    rw [menu_flatten_eq_buildForest, buildForest_radioGroup, buildForest_nil]
  refine ⟨h, ?_, ?_⟩
  · rw [countNodes, countNodes]
  · rw [h, countNodes, countNodes]
    decide

/-- Claim C7, amended:  `menu_flatten` produces exactly the table of the
reference builder `flattenSpec`: row 0 is the synthetic root whose children
are the top-level rows, every non-`RadioGroup` node contributes exactly one
row — in depth-first order, each node's row immediately followed by its
fully-expanded subtree — whose child list is exactly the row indices of its
immediate non-`RadioGroup` children in original order; `RadioGroup` nodes
are dropped.  Hence the table has `1 + countRows items` rows. -/
theorem menu_flatten_refines_spec (items : List MenuItem) :
    menu_flatten items = flattenSpec items
    ∧ (menu_flatten items).length = 1 + countRows items := by
  have h := menu_flatten_eq_buildForest items
  constructor
  · rw [h]
    rfl
  · rw [h]
    simp only [List.length_cons]
    rw [buildForest_length items 1]
    omega

/-- Claim C8:  Scenario A: one submenu with two leaves, one separator and one
top-level leaf flatten to exactly 6 rows including the synthetic root; row
0's child list is `[1, 4, 5]` — length 3, the three top-level items in
original order (the submenu row at 1, the separator row at 4, the leaf row
at 5).  Moreover every input, the empty menu included, produces at least
the synthetic root row. -/
theorem scenario_a_flatten :
    menu_flatten scenarioA
      = [(RawMenuItem.default, [1, 4, 5]),
         (subMenuToRaw "sub" true true "" [] [] .normal, [2, 3]),
         ({ StandardItem.default with label := "leaf1" }.toRaw, []),
         ({ StandardItem.default with label := "leaf2" }.toRaw, []),
         (sepatatorRaw, []),
         ({ StandardItem.default with label := "top" }.toRaw, [])]
    ∧ (menu_flatten scenarioA).length = 6
    ∧ ((menu_flatten scenarioA).headD (RawMenuItem.default, [])).2.length = 3
    ∧ ∀ items : List MenuItem, 1 ≤ (menu_flatten items).length := by
  have h : menu_flatten scenarioA
      = [(RawMenuItem.default, [1, 4, 5]),
         (subMenuToRaw "sub" true true "" [] [] .normal, [2, 3]),
         ({ StandardItem.default with label := "leaf1" }.toRaw, []),
         ({ StandardItem.default with label := "leaf2" }.toRaw, []),
         (sepatatorRaw, []),
         ({ StandardItem.default with label := "top" }.toRaw, [])] := by
    rw [menu_flatten_eq_buildForest]
    simp only [scenarioA, buildForest_subMenu, buildForest_standard,
      buildForest_sepatator, buildForest_nil, List.length_cons, List.length_nil,
      List.nil_append, List.cons_append, List.append_nil]
  refine ⟨h, by rw [h]; rfl, by rw [h]; rfl, ?_⟩
  intro items
  rw [menu_flatten_eq_buildForest]
  simp

/-!  Lemmas about the diff walk. -/

theorem headD_eq_getD (l : List β) (d : β) : l.headD d = l.getD 0 d := by
  cases l <;> rfl

theorem tail_getD (l : List β) (j : Nat) (d : β) :
    l.tail.getD j d = l.getD (j + 1) d := by
  cases l <;> simp [List.getD_nil, List.getD_cons_succ]

theorem take_succ_headD (l : List β) (n : Nat) (d : β) :
    (l.take (n + 1)).headD d = l.headD d := by
  cases l <;> rfl

theorem take_succ_tail (l : List β) (n : Nat) :
    (l.take (n + 1)).tail = l.tail.take n := by
  cases l <;> simp

/-- The `layout_updated` flag computed by the walk is exactly "some
position up to the new table's length diverges", i.e. `firstDiv` found a
position. -/
theorem diffWalk_flag (diff : α → α → Option (RowDiff ν)) (default : α)
    (i2id : Nat → Int) :
    ∀ (new old : List (TableRow α)) (idx : Nat),
      (diffWalk diff default i2id old new idx).2.2 = (firstDiv default old new).isSome := by
  intro new
  induction new with
  | nil => intro old idx; simp [diffWalk, firstDiv]
  | cons hd tl ih =>
    intro old idx
    obtain ⟨nItem, nChilds⟩ := hd
    simp only [diffWalk, firstDiv]
    by_cases h : (old.headD (default, [])).2 = nChilds
    · rw [if_neg (not_not_intro h), if_neg (not_not_intro h)]
      have hrec := ih old.tail (idx + 1)
      simp [hrec]
    · rw [if_pos h, if_pos h]
      rfl

/-- The scan `firstDiv` finds a position iff some position below the new table's
length has divergent child lists (the old table padded with default rows). -/
theorem firstDiv_isSome_iff (default : α) :
    ∀ (new old : List (TableRow α)),
      (firstDiv default old new).isSome = true ↔
        ∃ j, j < new.length ∧
          (old.getD j (default, [])).2 ≠ (new.getD j (default, [])).2 := by
  intro new
  induction new with
  | nil => intro old; simp [firstDiv]
  | cons hd tl ih =>
    intro old
    obtain ⟨nItem, nChilds⟩ := hd
    simp only [firstDiv]
    by_cases h : (old.headD (default, [])).2 = nChilds
    · rw [if_neg (not_not_intro h)]
      have hmap : (Option.map (· + 1) (firstDiv default old.tail tl)).isSome
          = (firstDiv default old.tail tl).isSome := by
        cases firstDiv default old.tail tl <;> rfl
      rw [hmap, ih old.tail]
      constructor
      · rintro ⟨j, hj, hne⟩
        refine ⟨j + 1, by simpa using hj, ?_⟩
        rw [List.getD_cons_succ, ← tail_getD]
        exact hne
      · rintro ⟨j, hj, hne⟩
        match j with
        | 0 =>
          exfalso
          apply hne
          rw [List.getD_cons_zero, ← headD_eq_getD]
          exact h
        | j + 1 =>
          refine ⟨j, by simpa using hj, ?_⟩
          rw [tail_getD]
          rw [List.getD_cons_succ] at hne
          exact hne
    · rw [if_pos h]
      refine iff_of_true rfl ⟨0, by simp, ?_⟩
      rw [List.getD_cons_zero, ← headD_eq_getD]
      exact h

/-- The walk never looks past the first divergent position: its whole
output is already determined by the two tables truncated there. -/
theorem diffWalk_truncate (diff : α → α → Option (RowDiff ν)) (default : α)
    (i2id : Nat → Int) :
    ∀ (new old : List (TableRow α)) (idx d : Nat),
      firstDiv default old new = some d →
      diffWalk diff default i2id old new idx
        = diffWalk diff default i2id (old.take (d + 1)) (new.take (d + 1)) idx := by
  intro new
  induction new with
  | nil => intro old idx d h; simp [firstDiv] at h
  | cons hd tl ih =>
    intro old idx d h
    obtain ⟨nItem, nChilds⟩ := hd
    simp only [firstDiv] at h
    by_cases hc : (old.headD (default, [])).2 = nChilds
    · rw [if_neg (not_not_intro hc)] at h
      obtain ⟨d', hd', rfl⟩ := Option.map_eq_some'.mp h
      rw [List.take_succ_cons]
      simp only [diffWalk]
      rw [take_succ_headD, take_succ_tail]
      rw [if_neg (not_not_intro hc), if_neg (not_not_intro hc)]
      rw [ih old.tail (idx + 1) d' hd']
    · rw [if_pos hc] at h
      obtain rfl : d = 0 := by
        have := h
        injection this with h0
        omega
      rw [List.take_succ_cons, List.take_zero]
      simp only [diffWalk]
      rw [take_succ_headD]
      rw [if_pos hc, if_pos hc]

/-- On a structural change `update_menu` swaps the table, bumps the offset
by the previous table's length and the revision by one, and emits
`LayoutUpdated(0, new revision)`. -/
theorem update_menu_structural (diff : α → α → Option (RowDiff ν)) (default : α)
    (st : MenuState α ν) (newTable : List (TableRow α))
    (h : (firstDiv default st.table newTable).isSome = true) :
    update_menu diff default st newTable =
      ({ table := newTable
         offset := st.offset + (st.table.length : Int)
         revision := st.revision + 1 },
       some (.layoutUpdated 0 (st.revision + 1))) := by
  simp only [update_menu]
  rw [diffWalk_flag, h]
  simp

/-- On a cycle with no structural change `update_menu` swaps the table,
leaves offset and revision alone, and emits the property deltas when there
are any. -/
theorem update_menu_no_structural (diff : α → α → Option (RowDiff ν)) (default : α)
    (st : MenuState α ν) (newTable : List (TableRow α))
    (h : firstDiv default st.table newTable = none) :
    update_menu diff default st newTable =
      ({ st with table := newTable },
       if !(diffWalk diff default (index2id st.offset) st.table newTable 0).1.isEmpty
          || !(diffWalk diff default (index2id st.offset) st.table newTable 0).2.1.isEmpty
       then some (.itemsPropertiesUpdated
              (diffWalk diff default (index2id st.offset) st.table newTable 0).1
              (diffWalk diff default (index2id st.offset) st.table newTable 0).2.1)
       else none) := by
  simp only [update_menu]
  rw [diffWalk_flag, h]
  by_cases hp : (!(diffWalk diff default (index2id st.offset) st.table newTable 0).1.isEmpty
      || !(diffWalk diff default (index2id st.offset) st.table newTable 0).2.1.isEmpty) = true
  <;> simp [hp]

/-- Claim C3:  After a structural change (a cycle in which some row's child
list differs, so the offset is bumped by the previous table's length),
every identity that resolved to a row of the previous table and is not the
root satisfies `id2index id = none`. -/
theorem invalidation_after_structural_change
    (diff : α → α → Option (RowDiff ν)) (default : α)
    (st : MenuState α ν) (newTable : List (TableRow α))
    (hstruct : (firstDiv default st.table newTable).isSome = true)
    (id : Int) (idx : Nat) (hid : id ≠ 0)
    (hres : id2index st.offset id = some idx) (hlt : idx < st.table.length) :
    id2index (update_menu diff default st newTable).1.offset id = none := by
  rw [update_menu_structural diff default st newTable hstruct]
  simp only [id2index] at hres ⊢
  rw [if_neg hid] at hres ⊢
  split at hres
  case isTrue hpos =>
    have hidx : (id - st.offset).toNat = idx := by
      injection hres
    rw [if_neg (by omega)]
  case isFalse hpos =>
    exact Option.noConfusion hres

/-- Claim C4:  In one `update_menu` cycle, offset and revision change
together and only together; they change exactly when the cycle is
structural (some position's child lists differ, which is what the walk's
`layout_updated` flag detects), in which case the revision grows by exactly
1 and the offset by exactly the previous table's length; on a
property-only or no-change cycle both are untouched.  Consequently the
offset is non-decreasing and the revision strictly increases exactly on
structural changes.  (The hypothesis `0 < len` holds for every reachable
table: `menu_flatten` always produces at least the root row.) -/
theorem offset_revision_change_together
    (diff : α → α → Option (RowDiff ν)) (default : α)
    (st : MenuState α ν) (newTable : List (TableRow α))
    (hlen : 0 < st.table.length) :
    ((firstDiv default st.table newTable).isSome = true ↔
       ∃ j, j < newTable.length ∧
         (st.table.getD j (default, [])).2 ≠ (newTable.getD j (default, [])).2)
    ∧ ((firstDiv default st.table newTable).isSome = true →
        (update_menu diff default st newTable).1.offset
            = st.offset + (st.table.length : Int)
          ∧ (update_menu diff default st newTable).1.revision = st.revision + 1)
    ∧ (firstDiv default st.table newTable = none →
        (update_menu diff default st newTable).1.offset = st.offset
          ∧ (update_menu diff default st newTable).1.revision = st.revision)
    ∧ ((update_menu diff default st newTable).1.offset ≠ st.offset ↔
        (update_menu diff default st newTable).1.revision ≠ st.revision)
    ∧ st.offset ≤ (update_menu diff default st newTable).1.offset
    ∧ st.revision ≤ (update_menu diff default st newTable).1.revision := by
  have hiff := firstDiv_isSome_iff default newTable st.table
  cases hfd : firstDiv default st.table newTable with
  | none =>
    rw [hfd] at hiff
    rw [update_menu_no_structural diff default st newTable hfd]
    dsimp only
    refine ⟨hiff, ?_, fun _ => ⟨rfl, rfl⟩, by simp, le_refl _, le_refl _⟩
    intro hs
    simp at hs
  | some d =>
    have hs : (firstDiv default st.table newTable).isSome = true := by
      rw [hfd]
      rfl
    rw [hfd] at hiff
    rw [update_menu_structural diff default st newTable hs]
    dsimp only
    refine ⟨hiff, fun _ => ⟨rfl, rfl⟩, ?_, ?_, by omega, by omega⟩
    · intro hn
      exact Option.noConfusion hn
    · exact iff_of_true (by omega) (by omega)

/-- Closed witness for `offset_revision_change_together`: a structural
change of a one-row table at offset 0 bumps the offset to 1 and the
revision to 1. -/
theorem offset_revision_change_together_witness :
    0 < (⟨[((0 : Nat), ([] : List Nat))], 0, 0⟩ : MenuState Nat Nat).table.length ∧
    (update_menu (fun _ _ => (none : Option (RowDiff Nat))) 0
        ⟨[((0 : Nat), ([] : List Nat))], 0, 0⟩ [((0 : Nat), [1])]).1.offset = 1 ∧
    (update_menu (fun _ _ => (none : Option (RowDiff Nat))) 0
        ⟨[((0 : Nat), ([] : List Nat))], 0, 0⟩ [((0 : Nat), [1])]).1.revision = 1 := by
  refine ⟨by decide, ?_⟩
  have h := (offset_revision_change_together (fun _ _ => (none : Option (RowDiff Nat))) 0
      ⟨[((0 : Nat), ([] : List Nat))], 0, 0⟩ [((0 : Nat), [1])] (by decide)).2.1 (by decide)
  exact ⟨by rw [h.1]; decide, by rw [h.2]⟩

/-- Claim C5:  One diff-and-notify cycle emits exactly one of: nothing, when
no position diverges and no per-row property delta was collected; an
`ItemsPropertiesUpdated` carrying the collected `(identity, changed-map)`
and `(identity, removed-list)` pairs, when only properties changed; or a
`LayoutUpdated` carrying the new revision, when some position's child lists
differ — in which case the walk stops at the first divergent position (its
whole output is already determined by the tables truncated there) and the
notification carries no property deltas at all. -/
theorem update_menu_notification_cases
    (diff : α → α → Option (RowDiff ν)) (default : α)
    (st : MenuState α ν) (newTable : List (TableRow α)) :
    (firstDiv default st.table newTable = none →
       (diffWalk diff default (index2id st.offset) st.table newTable 0).1 = [] →
       (diffWalk diff default (index2id st.offset) st.table newTable 0).2.1 = [] →
       (update_menu diff default st newTable).2 = none)
    ∧ (firstDiv default st.table newTable = none →
       ((diffWalk diff default (index2id st.offset) st.table newTable 0).1 ≠ [] ∨
        (diffWalk diff default (index2id st.offset) st.table newTable 0).2.1 ≠ []) →
       (update_menu diff default st newTable).2
         = some (.itemsPropertiesUpdated
             (diffWalk diff default (index2id st.offset) st.table newTable 0).1
             (diffWalk diff default (index2id st.offset) st.table newTable 0).2.1))
    ∧ ((firstDiv default st.table newTable).isSome = true →
       (update_menu diff default st newTable).2
           = some (.layoutUpdated 0 (st.revision + 1))
         ∧ (update_menu diff default st newTable).1.revision = st.revision + 1)
    ∧ (∀ d, firstDiv default st.table newTable = some d →
       diffWalk diff default (index2id st.offset) st.table newTable 0
         = diffWalk diff default (index2id st.offset)
             (st.table.take (d + 1)) (newTable.take (d + 1)) 0) := by
  refine ⟨?_, ?_, ?_, ?_⟩
  · intro hn h1 h2
    rw [update_menu_no_structural diff default st newTable hn]
    dsimp only
    rw [h1, h2]
    simp
  · intro hn hne
    rw [update_menu_no_structural diff default st newTable hn]
    dsimp only
    rw [if_pos (by rcases hne with h | h <;> simp [h])]
  · intro hs
    rw [update_menu_structural diff default st newTable hs]
    exact ⟨rfl, rfl⟩
  · intro d hd
    exact diffWalk_truncate diff default (index2id st.offset) newTable st.table 0 d hd

/-- Closed witness for `update_menu_notification_cases`: the structural
change of a one-row table at revision 0 emits `LayoutUpdated(0, 1)`. -/
theorem update_menu_notification_cases_witness :
    (update_menu (fun _ _ => (none : Option (RowDiff Nat))) 0
        ⟨[((0 : Nat), ([] : List Nat))], 0, 0⟩ [((0 : Nat), [1])]).2
      = some (MenuNote.layoutUpdated 0 1) := by
  have h := (update_menu_notification_cases (fun _ _ => (none : Option (RowDiff Nat))) 0
      ⟨[((0 : Nat), ([] : List Nat))], 0, 0⟩ [((0 : Nat), [1])]).2.2.1 (by decide)
  exact h.1

/-- Closed witness for `invalidation_after_structural_change`. -/
theorem invalidation_after_structural_change_witness :
    (firstDiv (0 : Nat)
        (⟨[((0 : Nat), ([] : List Nat)), (0, [])], 0, 0⟩ : MenuState Nat Nat).table
        [((0 : Nat), [9])]).isSome = true ∧
    (1 : Int) ≠ 0 ∧
    id2index 0 1 = some 1 ∧ 1 < 2 ∧
    id2index (update_menu (fun _ _ => (none : Option (RowDiff Nat))) 0
        ⟨[((0 : Nat), ([] : List Nat)), (0, [])], 0, 0⟩ [((0 : Nat), [9])]).1.offset 1 = none := by
  refine ⟨by decide, by decide, by decide, by decide, ?_⟩
  exact invalidation_after_structural_change (fun _ _ => none) 0
    ⟨[(0, []), (0, [])], 0, 0⟩ [(0, [9])] (by decide) 1 1 (by decide) (by decide) (by decide)

end Ksni
